import Mathlib

/-!
Formal model of the TEPCO rate scraper (`scrape_tepco.py`).

Python strings are modelled as Lean `String`, with regular-expression work
done over `String.data : List Char`.  Python `float` values are modelled as
`ℚ`; every numeric literal appearing in the program is exactly representable,
so rational arithmetic agrees with the script's float arithmetic on all the
values the program manipulates.  Python code that can raise is modelled with
`Option`/`Except` (`none`/`.error` = an exception propagates).  The
BeautifulSoup document is modelled as a tree of nodes (`HNode`), each node
carrying the tag, the `id` and `class` attributes and its `.text`; the PDF
fetch/extract/NFKC-normalisation collaborators (network, pypdf, unicodedata)
are oracle parameters, while the status-code check, the regex extraction and
all control flow are modelled concretely.
-/

namespace TepcoRates

/-- ASCII digit, as matched by the Python regex classes `[0-9]` and `\d`. -/
def pyDigit (c : Char) : Bool := 48 ≤ c.toNat && c.toNat ≤ 57

def digitVal (c : Char) : Nat := c.toNat - 48

def digitsToNat (cs : List Char) : Nat := cs.foldl (fun n c => n * 10 + digitVal c) 0

/-- Python's `needle in hay` on strings. -/
def strContains (hay needle : String) : Bool :=
  (List.range (hay.data.length + 1)).any (fun i => needle.data.isPrefixOf (hay.data.drop i))

/-- Decimal digits of a natural number (f-string interpolation `f"{n}"`). -/
def natToCharsAux : Nat → Nat → List Char
  | 0, _ => []
  | fuel + 1, n =>
    if n < 10 then [Char.ofNat (48 + n)]
    else natToCharsAux fuel (n / 10) ++ [Char.ofNat (48 + n % 10)]

def natToString (n : Nat) : String := String.mk (natToCharsAux (n + 1) n)

/-- `re.sub(r"[^0-9.]", "", text)`: keep only ASCII digits and dots. -/
def stripNonNumeric (text : String) : String :=
  String.mk (text.data.filter (fun c => pyDigit c || c == '.'))

/-- Python `float()` applied to a string made only of digits and dots: it
succeeds iff the string holds at least one digit and at most one dot
(`"12"`, `"12.3"`, `".5"`, `"5."`); otherwise `float` raises `ValueError`,
modelled by `none`. -/
def pyFloatOfStripped (s : String) : Option ℚ :=
  match s.data.span pyDigit with
  | (ds, []) => if ds.isEmpty then none else some (digitsToNat ds)
  | (ds, '.' :: rest) =>
    if rest.all pyDigit && !(ds.isEmpty && rest.isEmpty) then
      some ((digitsToNat ds : ℚ) + (digitsToNat rest : ℚ) / (10 : ℚ) ^ rest.length)
    else none
  | _ => none

/-- `parse_price` (scrape_tepco.py:18-26).  `none` models a `ValueError`
escaping from `float(amount_str)`. -/
def parse_price (text : String) : Option ℚ :=
  let is_negative := strContains text "▲"
  let amount_str := stripNonNumeric text
  if amount_str = "" then some 0
  else (pyFloatOfStripped amount_str).map (fun amount => if is_negative then -amount else amount)

/-- `\d{4}` anchored at the head of the character list. -/
def run4At : List Char → Option Nat
  | c1 :: c2 :: c3 :: c4 :: _ =>
    if pyDigit c1 && pyDigit c2 && pyDigit c3 && pyDigit c4 then
      some (digitsToNat [c1, c2, c3, c4])
    else none
  | _ => none

/-- `\d{1,2}` (greedy) anchored at the head of the character list. -/
def run12At : List Char → Option Nat
  | [] => none
  | c :: cs =>
    if pyDigit c then
      match cs with
      | c2 :: _ => if pyDigit c2 then some (digitsToNat [c, c2]) else some (digitVal c)
      | [] => some (digitVal c)
    else none

/-- `re.search`: try the anchored matcher at each position, left to right. -/
def scanFirst (f : List Char → Option Nat) : List Char → Option Nat
  | [] => none
  | c :: cs =>
    match f (c :: cs) with
    | some y => some y
    | none => scanFirst f cs

/-- `parse_year` (scrape_tepco.py:28-33): `re.search(r"(\d{4})", text)`. -/
def parse_year (text : String) : Option Nat := scanFirst run4At text.data

/-- `parse_month` (scrape_tepco.py:35-40): `re.search(r"(\d{1,2})", text)`. -/
def parse_month (text : String) : Option Nat := scanFirst run12At text.data

/-- Integer floor of a rational. -/
def ratFloor (q : ℚ) : ℤ := q.num.fdiv q.den

/-- Round to the nearest integer, ties to even: the rounding Python's
`round` uses (all values rounded by this program are exactly representable
as binary floats, so the float detour of CPython changes nothing). -/
def halfEvenRound (q : ℚ) : ℤ :=
  let n := ratFloor q
  let f := q - n
  if f < 1/2 then n else if 1/2 < f then n + 1 else if n % 2 = 0 then n else n + 1

/-- Python `round(x, 2)`. -/
def pyRound2 (q : ℚ) : ℚ := (halfEvenRound (q * 100) : ℚ) / 100

structure UsageRate where
  min : Nat
  max : Option Nat
  price : ℚ
deriving Repr, DecidableEq

structure StandardSConstants where
  base_rate_per_10a : ℚ
  base_rates : List (String × ℚ)
  usage_rates : List UsageRate
deriving Repr, DecidableEq

/-- `get_standard_s_constants` (scrape_tepco.py:42-57).  The Python dict is
modelled as an association list in insertion order; `range(10, 61, 10)`
enumerates `[10, 20, 30, 40, 50, 60]`. -/
def get_standard_s_constants : StandardSConstants :=
  let unit_price_10a : ℚ := 311.75
  { base_rate_per_10a := unit_price_10a
    base_rates :=
      ((List.range 6).map (fun i => 10 + 10 * i)).map
        (fun ampere => (natToString ampere ++ "A", pyRound2 (unit_price_10a * ((ampere : ℚ) / 10))))
    usage_rates :=
      [{ min := 0, max := some 120, price := 29.80 },
       { min := 121, max := some 300, price := 36.40 },
       { min := 301, max := none, price := 40.49 }] }

/-- One parsed HTML element: tag, `id` attribute, `class` attribute, the
BeautifulSoup `.text` of the element, and its child elements. -/
inductive HNode where
  | mk (tag : String) (idAttr : Option String) (classAttr : Option String)
       (text : String) (children : List HNode)

def HNode.tag : HNode → String
  | .mk t _ _ _ _ => t

def HNode.idAttr : HNode → Option String
  | .mk _ i _ _ _ => i

def HNode.classAttr : HNode → Option String
  | .mk _ _ c _ _ => c

def HNode.text : HNode → String
  | .mk _ _ _ t _ => t

def HNode.children : HNode → List HNode
  | .mk _ _ _ _ cs => cs

mutual

/-- All descendants of a node in document (preorder) traversal order, the
order in which BeautifulSoup's `find`/`find_all` visit elements. -/
def nodeDesc : HNode → List HNode
  | .mk _ _ _ _ cs => listDesc cs

def listDesc : List HNode → List HNode
  | [] => []
  | c :: cs => c :: nodeDesc c ++ listDesc cs

end

mutual

/-- All `<a>` descendants in document order, each paired with its chain of
ancestors (nearest first) — the data `find_all('a')` plus `find_parent`
need. -/
def nodeAnchors (anc : List HNode) : HNode → List (HNode × List HNode)
  | .mk tag i c t cs =>
    (if tag = "a" then [(HNode.mk tag i c t cs, anc)] else []) ++
      listAnchors (HNode.mk tag i c t cs :: anc) cs

def listAnchors (anc : List HNode) : List HNode → List (HNode × List HNode)
  | [] => []
  | n :: ns => nodeAnchors anc n ++ listAnchors anc ns

end

def soupAnchors (doc : HNode) : List (HNode × List HNode) :=
  listAnchors [doc] doc.children

/-- `soup.find('div', id='anker01')`. -/
def findDivAnker (doc : HNode) : Option HNode :=
  (nodeDesc doc).find? (fun n => n.tag == "div" && n.idAttr == some "anker01")

/-- `x.find_parent(...)`: first ancestor satisfying the test, together with
the remaining (strictly higher) ancestors. -/
def findParentFrom : List HNode → (HNode → Bool) → Option (HNode × List HNode)
  | [], _ => none
  | p :: rest, pred => if pred p then some (p, rest) else findParentFrom rest pred

def fuelSectionMarker : String := "燃料費調整単価（低圧）"

def anchorMatches (p : HNode × List HNode) : Bool := strContains p.1.text fuelSectionMarker

def questionDivTest (n : HNode) : Bool := n.tag == "div" && n.classAttr == some "question"

def faqDivTest (n : HNode) : Bool := n.tag == "div" && n.classAttr == some "faq-element"

inductive ScrapeError where
  | containerNotFound
  | tableNotFound
  | attributeError
  | priceValueError
deriving Repr, DecidableEq

/-- Locating the target container (scrape_tepco.py:163-174): the primary
lookup by `id='anker01'`, then the text-based fallback over the first `<a>`
whose text holds the section marker.  `.error .attributeError` models the
`AttributeError` raised when `find_parent('div', class_='question')` returns
`None` and `.find_parent('div', class_='faq-element')` is invoked on it;
`.error .containerNotFound` models the explicit
`ValueError("Could not find the ... section.")`. -/
def locateTargetDiv (doc : HNode) : Except ScrapeError HNode :=
  match findDivAnker doc with
  | some d => .ok d
  | none =>
    match (soupAnchors doc).find? anchorMatches with
    | none => .error .containerNotFound
    | some (_, anc) =>
      match findParentFrom anc questionDivTest with
      | none => .error .attributeError
      | some (_, rest) =>
        match findParentFrom rest faqDivTest with
        | none => .error .containerNotFound
        | some (f, _) => .ok f

/-- `target_div.find('table')`. -/
def findTableIn (d : HNode) : Option HNode :=
  (nodeDesc d).find? (fun n => n.tag == "table")

/-- `table.find_all('tr')`. -/
def tableRows (t : HNode) : List HNode :=
  (nodeDesc t).filter (fun n => n.tag == "tr")

/-- `row.find_all('td')`, keeping each cell's `.text`. -/
def rowCells (r : HNode) : List String :=
  ((nodeDesc r).filter (fun n => n.tag == "td")).map HNode.text

structure FuelAdjustmentEntry where
  year : Nat
  month : Nat
  date_iso : String
  price_kwh : ℚ
  area : String
  type : String
deriving Repr, DecidableEq

/-- `f"{month:02d}"`. -/
def pad2 (n : Nat) : String := if n < 10 then "0" ++ natToString n else natToString n

/-- `f"{current_year}-{month:02d}-01"`. -/
def dateIsoOf (year month : Nat) : String :=
  natToString year ++ "-" ++ pad2 month ++ "-01"

/-- Header-row test (scrape_tepco.py:195-197): concatenated cell text
containing any of the three markers. -/
def headerRow (cols : List String) : Bool :=
  let row_text := String.join cols
  strContains row_text "適用年月" || strContains row_text "燃料費調整単価" ||
    strContains row_text "円/kWh"

/-- The `if current_year and month:` emission step (scrape_tepco.py:219-231).
Python truthiness: `None` and `0` are both falsy, so a parsed year or month
of `0` also suppresses the entry. -/
def emitEntry (year month : Option Nat) (price_text : String) :
    Except ScrapeError (Option FuelAdjustmentEntry) :=
  match year, month with
  | some y, some m =>
    if y ≠ 0 ∧ m ≠ 0 then
      match parse_price price_text with
      | some price =>
        .ok (some { year := y, month := m, date_iso := dateIsoOf y m, price_kwh := price,
                    area := "Kanto", type := "Low Voltage (Standard S)" })
      | none => .error .priceValueError
    else .ok none
  | _, _ => .ok none

/-- One iteration of the row loop (scrape_tepco.py:189-231), as a transition
on the running `current_year` state: returns the new state and either the
emitted entry, no entry, or the propagated error. -/
def rowStep (current_year : Option Nat) (cols : List String) :
    Option Nat × Except ScrapeError (Option FuelAdjustmentEntry) :=
  match cols with
  | [] => (current_year, .ok none)
  | _ :: _ =>
    if headerRow cols then (current_year, .ok none)
    else
      match cols with
      | [c0, c1, _, c3] =>
        let y := parse_year c0
        (y, emitEntry y (parse_month c1) c3)
      | [c0, _, c2] =>
        (current_year, emitEntry current_year (parse_month c0) c2)
      | _ => (current_year, .ok none)

/-- The row loop as a fold over the rows' cell texts. -/
def scrapeRows (current_year : Option Nat) :
    List (List String) → Except ScrapeError (List FuelAdjustmentEntry)
  | [] => .ok []
  | r :: rs =>
    match rowStep current_year r with
    | (_, .error e) => .error e
    | (y2, .ok none) => scrapeRows y2 rs
    | (y2, .ok (some entry)) => (scrapeRows y2 rs).map (fun es => entry :: es)

/-- `scrape_tepco_rates` (scrape_tepco.py:154-233) on an already-parsed
document. -/
def scrape_tepco_rates (doc : HNode) : Except ScrapeError (List FuelAdjustmentEntry) :=
  match locateTargetDiv doc with
  | .error e => .error e
  | .ok d =>
    match findTableIn d with
    | none => .error .tableNotFound
    | some t => scrapeRows none ((tableRows t).map rowCells)

structure LevyPeriod where
  start : String
  «end» : String
  price : ℚ
deriving Repr, DecidableEq

/-- Python `s.split(sep)` for a one-character separator, over characters. -/
def splitOnChar (sep : Char) : List Char → List (List Char)
  | [] => [[]]
  | c :: rest =>
    let r := splitOnChar sep rest
    if c = sep then [] :: r
    else
      match r with
      | h :: t => (c :: h) :: t
      | [] => [[c]]

/-- Python `int()` on one piece of a split `"YYYY-MM"` string (`none` models
the `ValueError`; the program only feeds it digit strings). -/
def parseIntDigits (cs : List Char) : Option Nat :=
  if !cs.isEmpty && cs.all pyDigit then some (digitsToNat cs) else none

/-- `start_y, start_m = map(int, s.split('-'))` followed by the
`year * 100 + month` encoding (scrape_tepco.py:271-278); `none` models the
exception from `int()` or from unpacking a split of length ≠ 2. -/
def ymToVal (s : String) : Option Nat :=
  match splitOnChar '-' s.data with
  | [ys, ms] =>
    match parseIntDigits ys, parseIntDigits ms with
    | some y, some m => some (y * 100 + m)
    | _, _ => none
  | _ => none

/-- Containment of the encoded current month in a period's inclusive
`[start, end]` range — the `start_val <= curr_val <= end_val` test. -/
def levyContains (curr : Nat) (l : LevyPeriod) : Bool :=
  match ymToVal l.start, ymToVal l.«end» with
  | some s, some e => s ≤ curr && curr ≤ e
  | _, _ => false

structure CurrentRates where
  year : Nat
  month : Nat
  date_iso : String
  fuel_adjustment : Option ℚ
  renewable_energy_levy : Option ℚ
deriving Repr, DecidableEq

/-- The levy-selection loop of `get_current_rates` (scrape_tepco.py:256-290):
scan the periods in list order, parse each period's bounds (an unparsable
bound raises out of the whole function), stop at the first period whose
inclusive range holds the current month. -/
def findLevyVal (curr : Nat) : List LevyPeriod → Except Unit (Option ℚ)
  | [] => .ok none
  | entry :: rest =>
    match ymToVal entry.start, ymToVal entry.«end» with
    | some s, some e =>
      if s ≤ curr ∧ curr ≤ e then .ok (some entry.price) else findLevyVal curr rest
    | _, _ => .error ()

/-- `get_current_rates` (scrape_tepco.py:235-298), with `datetime.date.today()`
supplied as the `(year, month, isoformat)` parameters. -/
def get_current_rates (todayYear todayMonth : Nat) (todayIso : String)
    (fuel_data : List FuelAdjustmentEntry) (levy_data : List LevyPeriod) :
    Except Unit CurrentRates :=
  let fuel_adj := fuel_data.find? (fun e => e.year == todayYear && e.month == todayMonth)
  match findLevyVal (todayYear * 100 + todayMonth) levy_data with
  | .error e => .error e
  | .ok levy_val =>
    .ok { year := todayYear, month := todayMonth, date_iso := todayIso,
          fuel_adjustment := fuel_adj.map FuelAdjustmentEntry.price_kwh,
          renewable_energy_levy := levy_val }

/-- `\d+(\.\d+)?円` anchored at the head of the character list (the group of
`re.search(r'単価.*?(\d+(\.\d+)?)円', text)`), with the regex engine's
backtracking resolved: a shorter take of either digit run can never be
followed by the required literal, so greedy runs are exact. -/
def numTokenAt (cs : List Char) : Option (List Char) :=
  match cs.span pyDigit with
  | ([], _) => none
  | (d1, rest) =>
    match rest with
    | [] => none
    | r :: rest2 =>
      if r = '.' then
        match rest2.span pyDigit with
        | ([], _) => none
        | (d2, rest3) =>
          match rest3 with
          | [] => none
          | r3 :: _ => if r3 = '円' then some (d1 ++ '.' :: d2) else none
      else if r = '円' then some d1
      else none

/-- `\d+\.\d+円` anchored at the head of the character list (the group of the
fallback `re.search(r'賦課金.*?(\d+\.\d+)円', text)`). -/
def numDecTokenAt (cs : List Char) : Option (List Char) :=
  match cs.span pyDigit with
  | ([], _) => none
  | (d1, rest) =>
    match rest with
    | [] => none
    | r :: rest2 =>
      if r = '.' then
        match rest2.span pyDigit with
        | ([], _) => none
        | (d2, rest3) =>
          match rest3 with
          | [] => none
          | r3 :: _ => if r3 = '円' then some (d1 ++ '.' :: d2) else none
      else none

/-- Scan left-to-right for the first anchored match of a token matcher. -/
def scanToken (f : List Char → Option (List Char)) : List Char → Option (List Char)
  | [] => none
  | c :: cs =>
    match f (c :: cs) with
    | some r => some r
    | none => scanToken f cs

/-- Drop everything up to and including the first occurrence of `needle`
(`none` when `needle` does not occur).  With the lazy `.*?` in
`単価.*?(\d+(\.\d+)?)円` this realises `re.search`'s leftmost-match rule:
the overall match anchors at the first occurrence of the literal and the
group is the first token match after it. -/
def dropPastSub (needle : List Char) : List Char → Option (List Char)
  | [] => if needle.isEmpty then some [] else none
  | c :: cs =>
    if needle.isPrefixOf (c :: cs) then some ((c :: cs).drop needle.length)
    else dropPastSub needle cs

def searchTankaPrice (cs : List Char) : Option (List Char) :=
  match dropPastSub "単価".data cs with
  | none => none
  | some rest => scanToken numTokenAt rest

def searchFukakinPrice (cs : List Char) : Option (List Char) :=
  match dropPastSub "賦課金".data cs with
  | none => none
  | some rest => scanToken numDecTokenAt rest

/-- `float(match.group(1))` on a token matched by `\d+(\.\d+)?`. -/
def floatOfMatch (cs : List Char) : ℚ :=
  match splitOnChar '.' cs with
  | [a, b] => (digitsToNat a : ℚ) + (digitsToNat b : ℚ) / (10 : ℚ) ^ b.length
  | _ => (digitsToNat cs : ℚ)

/-- The text pipeline of `check_renewable_energy_pdf`: concatenate the page
texts, NFKC-normalise (oracle), then `text.replace("\n", "")`. -/
def normalizedPdfText (nfkcNormalize : String → String) (pages : List String) : String :=
  String.mk ((nfkcNormalize (String.join pages)).data.filter (fun c => c ≠ '\n'))

/-- `check_renewable_energy_pdf` (scrape_tepco.py:59-114).  The collaborators
outside this repository are oracle parameters: `fetchPdf` models
`requests.get` on the year's URL (`.error` = any network exception,
otherwise the status code and the response body), `extractPdfText` models
`PdfReader` + per-page `extract_text` (`.error` = any pypdf/decode
exception), `nfkcNormalize` models `unicodedata.normalize('NFKC', ·)`.
Every exception inside the `try` is caught and yields `None`. -/
def check_renewable_energy_pdf {α : Type} (fetchPdf : Nat → Except Unit (Nat × α))
    (extractPdfText : α → Except Unit (List String)) (nfkcNormalize : String → String)
    (year : Nat) : Option ℚ :=
  match fetchPdf year with
  | .error _ => none
  | .ok (status_code, content) =>
    if status_code = 200 then
      match extractPdfText content with
      | .error _ => none
      | .ok pages =>
        let text := normalizedPdfText nfkcNormalize pages
        match searchTankaPrice text.data with
        | some g => some (floatOfMatch g)
        | none =>
          match searchFukakinPrice text.data with
          | some g => some (floatOfMatch g)
          | none => none
    else none

/-- The hardcoded levy periods (scrape_tepco.py:118-121). -/
def initialLevies : List LevyPeriod :=
  [{ start := "2024-05", «end» := "2025-04", price := 3.49 },
   { start := "2025-05", «end» := "2026-05", price := 3.98 }]

/-- One iteration of the discovery loop of `get_renewable_energy_levy`
(scrape_tepco.py:135-150): skip the year when a period with the same start
already exists, otherwise run the per-year check and append a new period
when the discovered price is truthy (`if price:`: non-`None` and nonzero). -/
def levyYearStep {α : Type} (fetchPdf : Nat → Except Unit (Nat × α))
    (extractPdfText : α → Except Unit (List String)) (nfkcNormalize : String → String)
    (levies : List LevyPeriod) (year : Nat) : List LevyPeriod :=
  let already_has := levies.any (fun l => l.start == natToString year ++ "-05")
  if already_has then levies
  else
    match check_renewable_energy_pdf fetchPdf extractPdfText nfkcNormalize year with
    | some price =>
      if price ≠ 0 then
        levies ++ [{ start := natToString year ++ "-05",
                     «end» := natToString (year + 1) ++ "-05", price := price }]
      else levies
    | none => levies

/-- `get_renewable_energy_levy` (scrape_tepco.py:116-152), parameterised by
the same oracles.  `years_to_check = [2026, 2027]`. -/
def get_renewable_energy_levy {α : Type} (fetchPdf : Nat → Except Unit (Nat × α))
    (extractPdfText : α → Except Unit (List String)) (nfkcNormalize : String → String)
    (should_scrape_pdf : Bool) : List LevyPeriod :=
  if !should_scrape_pdf then initialLevies
  else [2026, 2027].foldl (levyYearStep fetchPdf extractPdfText nfkcNormalize) initialLevies

/-- The effect of one row on the running `current_year` state alone. -/
def declYear (cy : Option Nat) (cols : List String) : Option Nat := (rowStep cy cols).1

/-- The `current_year` state after a list of rows: the year declared by the
most recent 4-column data row, or the inherited state when none occurred. -/
def lastDeclaredYear (cy : Option Nat) (rows : List (List String)) : Option Nat :=
  rows.foldl declYear cy

/-- What one candidate year contributes to the levy list: the new period
when the per-year check yields a truthy price, nothing otherwise. -/
def discoveredPeriod (checkResult : Option ℚ) (year : Nat) : List LevyPeriod :=
  match checkResult with
  | some price =>
    if price ≠ 0 then
      [{ start := natToString year ++ "-05", «end» := natToString (year + 1) ++ "-05",
         price := price }]
    else []
  | none => []

/-! ### Generic facts about left-to-right regex scanning -/

theorem scanFirst_none_iff {f : List Char → Option Nat} (h0 : f [] = none) :
    ∀ cs, scanFirst f cs = none ↔ ∀ i, f (cs.drop i) = none := by
  intro cs
  induction cs with
  | nil =>
    simp only [scanFirst, List.drop_nil, true_iff]
    intro i
    cases i <;> exact h0
  | cons c cs ih =>
    cases hf : f (c :: cs) with
    | some y =>
      simp only [scanFirst, hf]
      constructor
      · intro h; exact absurd h (by simp)
      · intro h; exact absurd (h 0) (by simp [hf])
    | none =>
      simp only [scanFirst, hf]
      rw [ih]
      constructor
      · intro h i
        cases i with
        | zero => exact hf
        | succ j => exact h j
      · intro h i
        exact h (i + 1)

theorem scanFirst_some_iff {f : List Char → Option Nat} (h0 : f [] = none) :
    ∀ cs y, scanFirst f cs = some y ↔
      ∃ i, f (cs.drop i) = some y ∧ ∀ j, j < i → f (cs.drop j) = none := by
  intro cs
  induction cs with
  | nil =>
    intro y
    simp only [scanFirst, List.drop_nil]
    constructor
    · intro h; exact absurd h (by simp)
    · rintro ⟨i, hi, -⟩
      exact absurd hi (by simp [h0])
  | cons c cs ih =>
    intro y
    cases hf : f (c :: cs) with
    | some z =>
      simp only [scanFirst, hf]
      constructor
      · intro h
        refine ⟨0, ?_, by omega⟩
        simpa using hf.trans h
      · rintro ⟨i, hi, hj⟩
        cases i with
        | zero => simpa [hf] using hi
        | succ i => exact absurd (hj 0 (by omega)) (by simp [hf])
    | none =>
      simp only [scanFirst, hf]
      rw [ih]
      constructor
      · rintro ⟨i, hi, hj⟩
        refine ⟨i + 1, by simpa using hi, ?_⟩
        intro j hlt
        cases j with
        | zero => exact hf
        | succ j => exact hj j (by omega)
      · rintro ⟨i, hi, hj⟩
        cases i with
        | zero => exact absurd hi (by simp [hf])
        | succ i => exact ⟨i, by simpa using hi, fun j hlt => hj (j + 1) (by omega)⟩

/-- C7: `parse_year` returns the value of the leftmost occurrence of four
consecutive ASCII digits (the first `\d{4}` match), `parse_month` the value
of the leftmost greedy run of one or two digits (the first `\d{1,2}` match);
both return `none` exactly when no position matches.  On the concrete
labels: `parse_year "2026年4月分" = 2026` and `parse_month "4月分" = 4`. -/
theorem parse_year_month_first_match :
    (∀ s : String, parse_year s = none ↔ ∀ i, run4At (s.data.drop i) = none)
    ∧ (∀ (s : String) (y : Nat), parse_year s = some y ↔
        ∃ i, run4At (s.data.drop i) = some y ∧ ∀ j, j < i → run4At (s.data.drop j) = none)
    ∧ (∀ s : String, parse_month s = none ↔ ∀ i, run12At (s.data.drop i) = none)
    ∧ (∀ (s : String) (m : Nat), parse_month s = some m ↔
        ∃ i, run12At (s.data.drop i) = some m ∧ ∀ j, j < i → run12At (s.data.drop j) = none)
    ∧ parse_year "2026年4月分" = some 2026
    ∧ parse_month "4月分" = some 4 :=
  ⟨fun s => scanFirst_none_iff rfl s.data,
   fun s y => scanFirst_some_iff rfl s.data y,
   fun s => scanFirst_none_iff rfl s.data,
   fun s m => scanFirst_some_iff rfl s.data m,
   by with_unfolding_all rfl,
   by with_unfolding_all rfl⟩

/-- C7 witness: instantiating the leftmost-match characterisation on the
spec's concrete label. -/
theorem parse_year_month_first_match_witness :
    ∃ i, run4At ("2026年4月分".data.drop i) = some 2026 ∧
      ∀ j, j < i → run4At ("2026年4月分".data.drop j) = none :=
  (parse_year_month_first_match.2.1 "2026年4月分" 2026).mp (by with_unfolding_all rfl)

/-- C3 counterexample: the claim says `parse_price` never raises, but on
`"."` the stripped remainder is the nonempty string `"."`, and Python's
`float(".")` raises `ValueError`, which propagates out of `parse_price`. -/
theorem parse_price_raises_on_lone_dot : parse_price "." = none := by
  with_unfolding_all rfl

/-- C3 (amended): `parse_price` detects the `▲` marker, strips every
character that is not an ASCII digit or dot, returns `0.0` on an empty
remainder, and on a well-formed remainder returns the parsed decimal negated
iff the marker was present; it can only raise when the nonempty remainder is
malformed for `float()` (no digit, or several dots).  The spec's concrete
values hold. -/
theorem parse_price_spec :
    (∀ s : String, stripNonNumeric s = "" → parse_price s = some 0)
    ∧ (∀ (s : String) (q : ℚ), pyFloatOfStripped (stripNonNumeric s) = some q →
        parse_price s = some (if strContains s "▲" then -q else q))
    ∧ (∀ s : String, parse_price s = none →
        stripNonNumeric s ≠ "" ∧ pyFloatOfStripped (stripNonNumeric s) = none)
    ∧ parse_price "▲12.3円" = some (-12.3)
    ∧ parse_price "5.2円" = some 5.2
    ∧ parse_price "" = some 0 := by
  refine ⟨?_, ?_, ?_, by with_unfolding_all rfl, by with_unfolding_all rfl,
    by with_unfolding_all rfl⟩
  · intro s h
    simp [parse_price, h]
  · intro s q h
    by_cases he : stripNonNumeric s = ""
    · rw [he] at h
      exact absurd h (by simp [show pyFloatOfStripped "" = none from rfl])
    · simp [parse_price, he, h]
  · intro s h
    by_cases he : stripNonNumeric s = ""
    · exact absurd h (by simp [parse_price, he])
    · refine ⟨he, ?_⟩
      cases hq : pyFloatOfStripped (stripNonNumeric s) with
      | none => rfl
      | some q => exact absurd h (by simp [parse_price, he, hq])

/-- C3 witness: the well-formed branch applied to the spec's example. -/
theorem parse_price_spec_witness :
    parse_price "▲12.3円" = some (if strContains "▲12.3円" "▲" then -(12.3 : ℚ) else 12.3) :=
  parse_price_spec.2.1 "▲12.3円" 12.3 (by with_unfolding_all rfl)

/-- C9: the amperage ladder is `[10, 20, 30, 40, 50, 60]`, each base charge
is `round(311.75 * (ampere / 10), 2)`, the rounded table evaluates to the
exact expected values (in particular `935.25` for 30A), and the usage bands
are the three fixed tiers `[0, 120]`, `[121, 300]`, `[301, ∞)`. -/
theorem standard_s_constants_spec :
    ((List.range 6).map (fun i => 10 + 10 * i) = [10, 20, 30, 40, 50, 60])
    ∧ (∀ a ∈ [10, 20, 30, 40, 50, 60],
        (natToString a ++ "A", pyRound2 ((311.75 : ℚ) * ((a : ℚ) / 10))) ∈
          get_standard_s_constants.base_rates)
    ∧ get_standard_s_constants.base_rates =
        [("10A", 311.75), ("20A", 623.5), ("30A", 935.25), ("40A", 1247),
         ("50A", 1558.75), ("60A", 1870.5)]
    ∧ pyRound2 ((311.75 : ℚ) * (30 / 10)) = 935.25
    ∧ get_standard_s_constants.usage_rates =
        [{ min := 0, max := some 120, price := 29.80 },
         { min := 121, max := some 300, price := 36.40 },
         { min := 301, max := none, price := 40.49 }] := by
  refine ⟨by with_unfolding_all rfl, ?_, by with_unfolding_all rfl, by with_unfolding_all rfl,
    by with_unfolding_all rfl⟩
  intro a ha
  have hbr : get_standard_s_constants.base_rates =
      [("10A", 311.75), ("20A", 623.5), ("30A", 935.25), ("40A", 1247),
       ("50A", 1558.75), ("60A", 1870.5)] := by with_unfolding_all rfl
  fin_cases ha <;> rw [hbr] <;> simp only [List.mem_cons, List.not_mem_nil, or_false] <;>
    first
      | exact Or.inl (by with_unfolding_all rfl)
      | exact Or.inr (Or.inl (by with_unfolding_all rfl))
      | exact Or.inr (Or.inr (Or.inl (by with_unfolding_all rfl)))
      | exact Or.inr (Or.inr (Or.inr (Or.inl (by with_unfolding_all rfl))))
      | exact Or.inr (Or.inr (Or.inr (Or.inr (Or.inl (by with_unfolding_all rfl)))))
      | exact Or.inr (Or.inr (Or.inr (Or.inr (Or.inr (by with_unfolding_all rfl)))))

/-- C9 witness: the 30A row of the ladder. -/
theorem standard_s_constants_spec_witness :
    (natToString 30 ++ "A", pyRound2 ((311.75 : ℚ) * ((30 : ℚ) / 10))) ∈
      get_standard_s_constants.base_rates :=
  standard_s_constants_spec.2.1 30 (by decide)

/-! ### Row processing -/

theorem emitEntry_ok_some {y m : Option Nat} {t : String} {e : FuelAdjustmentEntry}
    (h : emitEntry y m t = .ok (some e)) :
    y = some e.year ∧ m = some e.month ∧ parse_price t = some e.price_kwh ∧
      e.year ≠ 0 ∧ e.month ≠ 0 := by
  cases y with
  | none => simp [emitEntry] at h
  | some yv =>
    cases m with
    | none => simp [emitEntry] at h
    | some mv =>
      simp only [emitEntry] at h
      split at h
      · cases hp : parse_price t with
        | none => rw [hp] at h; exact absurd h (by simp)
        | some p =>
          rw [hp] at h
          simp only [Except.ok.injEq, Option.some.injEq] at h
          subst h
          simp_all
      · exact absurd h (by simp)

/-- C1: row classification.  A row with no `td` cells, a header row, or a
row with a column count other than 3 or 4 contributes no entry; any entry a
non-header 4-column row contributes has its year parsed from cell 0, its
month from cell 1 and its price from cell 3; any entry a non-header
3-column row contributes keeps the inherited year, with month from cell 0
and price from cell 2. -/
theorem row_classification : ∀ (cy : Option Nat) (cols : List String),
    (cols = [] → scrapeRows cy [cols] = .ok [])
    ∧ (headerRow cols = true → scrapeRows cy [cols] = .ok [])
    ∧ (cols ≠ [] → cols.length ≠ 3 → cols.length ≠ 4 → scrapeRows cy [cols] = .ok [])
    ∧ (∀ c0 c1 c2 c3 es, cols = [c0, c1, c2, c3] → headerRow cols = false →
        scrapeRows cy [cols] = .ok es →
        ∀ e ∈ es, parse_year c0 = some e.year ∧ parse_month c1 = some e.month ∧
          parse_price c3 = some e.price_kwh)
    ∧ (∀ c0 c1 c2 es, cols = [c0, c1, c2] → headerRow cols = false →
        scrapeRows cy [cols] = .ok es →
        ∀ e ∈ es, cy = some e.year ∧ parse_month c0 = some e.month ∧
          parse_price c2 = some e.price_kwh) := by
  intro cy cols
  refine ⟨?_, ?_, ?_, ?_, ?_⟩
  · rintro rfl
    rfl
  · intro hh
    match cols with
    | [] => exact absurd hh (by decide)
    | c :: cs => simp [scrapeRows, rowStep, hh]
  · intro h0 h3 h4
    match cols with
    | [] => exact absurd rfl h0
    | [a] => simp [scrapeRows, rowStep]
    | [a, b] => simp [scrapeRows, rowStep]
    | [a, b, c] => exact absurd rfl h3
    | [a, b, c, d] => exact absurd rfl h4
    | a :: b :: c :: d :: f :: rest => simp [scrapeRows, rowStep]
  · rintro c0 c1 c2 c3 es rfl hh hs e he
    simp only [scrapeRows, rowStep, hh, if_neg, Bool.false_eq_true, not_false_iff] at hs
    cases hemit : emitEntry (parse_year c0) (parse_month c1) c3 with
    | error err => rw [hemit] at hs; exact absurd hs (by simp [scrapeRows])
    | ok o =>
      rw [hemit] at hs
      cases o with
      | none =>
        simp only [scrapeRows] at hs
        obtain rfl : ([] : List FuelAdjustmentEntry) = es := by simpa using hs
        simp at he
      | some entry =>
        simp only [scrapeRows, Except.map, Except.ok.injEq] at hs
        subst hs
        obtain rfl : e = entry := by simpa using he
        obtain ⟨h1, h2, h3, -, -⟩ := emitEntry_ok_some hemit
        exact ⟨h1, h2, h3⟩
  · rintro c0 c1 c2 es rfl hh hs e he
    simp only [scrapeRows, rowStep, hh, if_neg, Bool.false_eq_true, not_false_iff] at hs
    cases hemit : emitEntry cy (parse_month c0) c2 with
    | error err => rw [hemit] at hs; exact absurd hs (by simp [scrapeRows])
    | ok o =>
      rw [hemit] at hs
      cases o with
      | none =>
        simp only [scrapeRows] at hs
        obtain rfl : ([] : List FuelAdjustmentEntry) = es := by simpa using hs
        simp at he
      | some entry =>
        simp only [scrapeRows, Except.map, Except.ok.injEq] at hs
        subst hs
        obtain rfl : e = entry := by simpa using he
        obtain ⟨h1, h2, h3, -, -⟩ := emitEntry_ok_some hemit
        exact ⟨h1, h2, h3⟩

/-- C1 witness: a header row (it holds both the "適用年月" and the
"燃料費調整単価" markers) yields no entry. -/
theorem row_classification_witness :
    scrapeRows (some 2025) [["適用年月", "燃料費調整単価"]] = .ok [] :=
  (row_classification (some 2025) ["適用年月", "燃料費調整単価"]).2.1 (by with_unfolding_all rfl)

theorem declYear_of_ne4 {x : Option Nat} {cols : List String} (h : cols.length ≠ 4) :
    declYear x cols = x := by
  match cols with
  | [] => rfl
  | [a] => simp only [declYear, rowStep]; split <;> rfl
  | [a, b] => simp only [declYear, rowStep]; split <;> rfl
  | [a, b, c] => simp only [declYear, rowStep]; split <;> rfl
  | [a, b, c, d] => exact absurd rfl h
  | a :: b :: c :: d :: f :: rest => simp only [declYear, rowStep]; split <;> rfl

/-- C2: the year is carried from the most recent row that declared one.
Splitting the table anywhere, the suffix is scraped with the
`lastDeclaredYear` state of the prefix; that state is set to the parsed
first cell by every non-header 4-column row and left unchanged by every
other row; and on the spec's concrete alternating 4-row table every entry
carries year 2025. -/
theorem year_carry :
    (∀ (cy : Option Nat) (pre post : List (List String)),
      scrapeRows cy (pre ++ post) =
        (scrapeRows cy pre).bind (fun es1 =>
          (scrapeRows (lastDeclaredYear cy pre) post).map (fun es2 => es1 ++ es2)))
    ∧ (∀ (cy : Option Nat) (rows : List (List String)) (c0 c1 c2 c3 : String),
        headerRow [c0, c1, c2, c3] = false →
        lastDeclaredYear cy (rows ++ [[c0, c1, c2, c3]]) = parse_year c0)
    ∧ (∀ (cy : Option Nat) (rows : List (List String)) (cols : List String),
        cols.length ≠ 4 →
        lastDeclaredYear cy (rows ++ [cols]) = lastDeclaredYear cy rows)
    ∧ (scrapeRows none
        [["2025年", "1月", "x", "1.0円"], ["2月", "x", "2.0円"],
         ["2025年", "3月", "x", "3.0円"], ["4月", "x", "4.0円"]]).map
          (fun es => es.map FuelAdjustmentEntry.year) = .ok [2025, 2025, 2025, 2025] := by
  refine ⟨?_, ?_, ?_, by with_unfolding_all rfl⟩
  · intro cy pre post
    induction pre generalizing cy with
    | nil =>
      show scrapeRows cy post = (Except.ok []).bind _
      cases hp : scrapeRows cy post <;>
        simp [Except.bind, Except.map, lastDeclaredYear, hp]
    | cons r pre ih =>
      have hstate : lastDeclaredYear cy (r :: pre) = lastDeclaredYear (declYear cy r) pre := rfl
      show scrapeRows cy (r :: (pre ++ post)) = (scrapeRows cy (r :: pre)).bind _
      rw [hstate]
      rcases hr : rowStep cy r with ⟨y2, res⟩
      have hy2 : declYear cy r = y2 := by rw [declYear, hr]
      rw [hy2]
      cases res with
      | error err =>
        simp [scrapeRows, hr, Except.bind]
      | ok o =>
        cases o with
        | none =>
          simpa [scrapeRows, hr] using ih y2
        | some entry =>
          simp only [scrapeRows, hr]
          rw [ih y2]
          cases h1 : scrapeRows y2 pre with
          | error err => simp [Except.bind, Except.map]
          | ok es1 =>
            cases h2 : scrapeRows (lastDeclaredYear y2 pre) post with
            | error err => simp [Except.bind, Except.map]
            | ok es2 => simp [Except.bind, Except.map]
  · intro cy rows c0 c1 c2 c3 hh
    rw [lastDeclaredYear, List.foldl_append]
    show declYear (lastDeclaredYear cy rows) [c0, c1, c2, c3] = parse_year c0
    simp [declYear, rowStep, hh]
  · intro cy rows cols h
    rw [lastDeclaredYear, List.foldl_append]
    show declYear (lastDeclaredYear cy rows) cols = lastDeclaredYear cy rows
    exact declYear_of_ne4 h

/-- C2 witness: after a 3-column row and a 4-column row declaring 2025, the
carried state is the parsed declaration. -/
theorem year_carry_witness :
    lastDeclaredYear none ([["9月", "a", "b"]] ++ [["2025年", "1月", "x", "y"]]) =
      parse_year "2025年" :=
  year_carry.2.1 none [["9月", "a", "b"]] "2025年" "1月" "x" "y" (by with_unfolding_all rfl)

theorem pyDigit_val_le {c : Char} (h : pyDigit c = true) : digitVal c ≤ 9 := by
  simp only [pyDigit, Bool.and_eq_true, decide_eq_true_eq] at h
  simp only [digitVal]
  omega

theorem run4At_le {cs : List Char} {y : Nat} (h : run4At cs = some y) : y ≤ 9999 := by
  match cs with
  | [] => exact absurd h (by simp [run4At])
  | [c1] => exact absurd h (by simp [run4At])
  | [c1, c2] => exact absurd h (by simp [run4At])
  | [c1, c2, c3] => exact absurd h (by simp [run4At])
  | c1 :: c2 :: c3 :: c4 :: rest =>
    simp only [run4At] at h
    split at h
    · rename_i hd
      simp only [Bool.and_eq_true] at hd
      obtain ⟨⟨⟨h1, h2⟩, h3⟩, h4⟩ := hd
      obtain rfl : digitsToNat [c1, c2, c3, c4] = y := by simpa using h
      have b1 := pyDigit_val_le h1
      have b2 := pyDigit_val_le h2
      have b3 := pyDigit_val_le h3
      have b4 := pyDigit_val_le h4
      simp only [digitsToNat, List.foldl]
      omega
    · exact absurd h (by simp)

theorem run12At_le {cs : List Char} {m : Nat} (h : run12At cs = some m) : m ≤ 99 := by
  match cs with
  | [] => exact absurd h (by simp [run12At])
  | [c] =>
    simp only [run12At] at h
    split at h
    · rename_i hd
      obtain rfl : digitVal c = m := by simpa using h
      have := pyDigit_val_le hd
      omega
    · exact absurd h (by simp)
  | c :: c2 :: rest =>
    simp only [run12At] at h
    split at h
    · rename_i hd
      split at h
      · rename_i hd2
        obtain rfl : digitsToNat [c, c2] = m := by simpa using h
        have b1 := pyDigit_val_le hd
        have b2 := pyDigit_val_le hd2
        simp only [digitsToNat, List.foldl]
        omega
      · obtain rfl : digitVal c = m := by simpa using h
        have := pyDigit_val_le hd
        omega
    · exact absurd h (by simp)

theorem scanFirst_some_imp {f : List Char → Option Nat} {P : Nat → Prop}
    (hf : ∀ ds z, f ds = some z → P z) :
    ∀ {cs y}, scanFirst f cs = some y → P y := by
  intro cs
  induction cs with
  | nil => intro y h; exact absurd h (by simp [scanFirst])
  | cons c cs ih =>
    intro y h
    simp only [scanFirst] at h
    cases hd : f (c :: cs) with
    | some z =>
      rw [hd] at h
      obtain rfl : z = y := by simpa using h
      exact hf _ _ hd
    | none =>
      rw [hd] at h
      exact ih h

theorem parse_year_le {s : String} {y : Nat} (h : parse_year s = some y) : y ≤ 9999 :=
  scanFirst_some_imp (fun _ _ hz => run4At_le hz) h

theorem parse_month_le {s : String} {m : Nat} (h : parse_month s = some m) : m ≤ 99 :=
  scanFirst_some_imp (fun _ _ hz => run12At_le hz) h

theorem rowStep_fst_cases (cy : Option Nat) (cols : List String) :
    (rowStep cy cols).1 = cy ∨ ∃ c, (rowStep cy cols).1 = parse_year c := by
  match cols with
  | [] => exact Or.inl rfl
  | [a] => left; simp only [rowStep]; split <;> rfl
  | [a, b] => left; simp only [rowStep]; split <;> rfl
  | [a, b, c] => left; simp only [rowStep]; split <;> rfl
  | [a, b, c, d] =>
    simp only [rowStep]
    split
    · exact Or.inl rfl
    · exact Or.inr ⟨a, rfl⟩
  | a :: b :: c :: d :: f :: rest => left; simp only [rowStep]; split <;> rfl

theorem rowStep_snd_ok_some {cy : Option Nat} {cols : List String} {e : FuelAdjustmentEntry}
    (h : (rowStep cy cols).2 = .ok (some e)) :
    (cy = some e.year ∨ ∃ c, parse_year c = some e.year) ∧
      (∃ c, parse_month c = some e.month) ∧ e.year ≠ 0 ∧ e.month ≠ 0 := by
  match cols with
  | [] => exact absurd h (by simp [rowStep])
  | [a] =>
    simp only [rowStep] at h
    split at h <;> exact absurd h (by simp)
  | [a, b] =>
    simp only [rowStep] at h
    split at h <;> exact absurd h (by simp)
  | [a, b, c] =>
    simp only [rowStep] at h
    split at h
    · exact absurd h (by simp)
    · obtain ⟨h1, h2, -, h4, h5⟩ := emitEntry_ok_some h
      exact ⟨Or.inl h1, ⟨a, h2⟩, h4, h5⟩
  | [a, b, c, d] =>
    simp only [rowStep] at h
    split at h
    · exact absurd h (by simp)
    · obtain ⟨h1, h2, -, h4, h5⟩ := emitEntry_ok_some h
      exact ⟨Or.inr ⟨a, h1⟩, ⟨b, h2⟩, h4, h5⟩
  | a :: b :: c :: d :: f :: rest =>
    simp only [rowStep] at h
    split at h <;> exact absurd h (by simp)

theorem scrapeRows_bounds : ∀ (rows : List (List String)) (cy : Option Nat)
    (es : List FuelAdjustmentEntry), (∀ y, cy = some y → y ≤ 9999) →
    scrapeRows cy rows = .ok es →
    ∀ e ∈ es, 1 ≤ e.month ∧ e.month ≤ 99 ∧ 1 ≤ e.year ∧ e.year ≤ 9999 := by
  intro rows
  induction rows with
  | nil =>
    intro cy es hcy h e he
    obtain rfl : ([] : List FuelAdjustmentEntry) = es := by simpa [scrapeRows] using h
    simp at he
  | cons r rs ih =>
    intro cy es hcy h e he
    simp only [scrapeRows] at h
    rcases hr : rowStep cy r with ⟨y2, res⟩
    rw [hr] at h
    have hy2 : ∀ y, y2 = some y → y ≤ 9999 := by
      intro y hy
      rcases rowStep_fst_cases cy r with hc | ⟨c, hc⟩
      · exact hcy y (by rw [← hy, ← hc, hr])
      · exact parse_year_le (by rw [← hy, ← hc, hr])
    cases res with
    | error err => exact absurd h (by simp)
    | ok o =>
      cases o with
      | none => exact ih y2 es hy2 h e he
      | some entry =>
        replace h : Except.map (fun es => entry :: es) (scrapeRows y2 rs) = .ok es := h
        cases hrec : scrapeRows y2 rs with
        | error err => rw [hrec] at h; exact absurd h (by simp [Except.map])
        | ok es' =>
          rw [hrec] at h
          obtain rfl : entry :: es' = es := by simpa [Except.map] using h
          cases he with
          | head =>
            obtain ⟨hyr, ⟨c, hm⟩, hy0, hm0⟩ :=
              @rowStep_snd_ok_some cy r e (by rw [hr])
            have hmle := parse_month_le hm
            have hyle : e.year ≤ 9999 := by
              rcases hyr with hyr | ⟨c', hy⟩
              · exact hcy _ hyr
              · exact parse_year_le hy
            omega
          | tail _ he => exact ih y2 es' hy2 hrec e he

/-- C8 counterexample: nothing in the scraper enforces month ∈ 1..12 or
(year, month) uniqueness — a table that repeats a "13月" row produces two
identical entries with month 13. -/
theorem scrape_rows_month13_duplicate :
    scrapeRows none [["2025年", "13月", "x", "5.2円"], ["2025年", "13月", "x", "5.2円"]] =
      .ok [{ year := 2025, month := 13, date_iso := "2025-13-01", price_kwh := 5.2,
             area := "Kanto", type := "Low Voltage (Standard S)" },
           { year := 2025, month := 13, date_iso := "2025-13-01", price_kwh := 5.2,
             area := "Kanto", type := "Low Voltage (Standard S)" }] ∧
      ¬ (13 : Nat) ≤ 12 :=
  ⟨by with_unfolding_all rfl, by omega⟩

/-- C8 (amended): every entry emitted by the scraper has a truthy month of
at most two digits (1..99) and a truthy four-digit-parsed year (1..9999);
the stronger bounds month ∈ 1..12 and (year, month) uniqueness hold only
when the scraped table itself provides them. -/
theorem scrape_entry_bounds :
    ∀ (rows : List (List String)) (es : List FuelAdjustmentEntry),
      scrapeRows none rows = .ok es →
      ∀ e ∈ es, 1 ≤ e.month ∧ e.month ≤ 99 ∧ 1 ≤ e.year ∧ e.year ≤ 9999 :=
  fun rows es h => scrapeRows_bounds rows none es (by simp) h

/-- C8 witness: the bounds at a concrete scraped table. -/
theorem scrape_entry_bounds_witness :
    1 ≤ (2025 : Nat) ∧ (13 : Nat) ≤ 99 :=
  have h := scrape_entry_bounds [["2025年", "13月", "x", "5.2円"]]
    [{ year := 2025, month := 13, date_iso := "2025-13-01", price_kwh := 5.2,
       area := "Kanto", type := "Low Voltage (Standard S)" }]
    (by with_unfolding_all rfl)
    { year := 2025, month := 13, date_iso := "2025-13-01", price_kwh := 5.2,
      area := "Kanto", type := "Low Voltage (Standard S)" } (by simp)
  ⟨h.2.2.1, h.2.1⟩

/-! ### Discovery failures -/

/-- C5: in every case where the target container cannot be located — primary
`id` lookup failing together with the text fallback (no matching `<a>`, or a
matching `<a>` whose parent chain lacks the `question`/`faq-element` divs) —
or where the located container holds no table, `scrape_tepco_rates`
propagates an error instead of returning a (empty) result list. -/
theorem discovery_failure : ∀ doc : HNode,
    (findDivAnker doc = none → (soupAnchors doc).find? anchorMatches = none →
      scrape_tepco_rates doc = .error .containerNotFound)
    ∧ (∀ a anc, findDivAnker doc = none →
        (soupAnchors doc).find? anchorMatches = some (a, anc) →
        findParentFrom anc questionDivTest = none →
        scrape_tepco_rates doc = .error .attributeError)
    ∧ (∀ a anc q rest, findDivAnker doc = none →
        (soupAnchors doc).find? anchorMatches = some (a, anc) →
        findParentFrom anc questionDivTest = some (q, rest) →
        findParentFrom rest faqDivTest = none →
        scrape_tepco_rates doc = .error .containerNotFound)
    ∧ (∀ d, findDivAnker doc = some d → findTableIn d = none →
        scrape_tepco_rates doc = .error .tableNotFound)
    ∧ (∀ a anc q rest f rest2, findDivAnker doc = none →
        (soupAnchors doc).find? anchorMatches = some (a, anc) →
        findParentFrom anc questionDivTest = some (q, rest) →
        findParentFrom rest faqDivTest = some (f, rest2) →
        findTableIn f = none →
        scrape_tepco_rates doc = .error .tableNotFound) := by
  intro doc
  refine ⟨?_, ?_, ?_, ?_, ?_⟩
  · intro h1 h2
    simp [scrape_tepco_rates, locateTargetDiv, h1, h2]
  · intro a anc h1 h2 h3
    simp [scrape_tepco_rates, locateTargetDiv, h1, h2, h3]
  · intro a anc q rest h1 h2 h3 h4
    simp [scrape_tepco_rates, locateTargetDiv, h1, h2, h3, h4]
  · intro d h1 h2
    simp [scrape_tepco_rates, locateTargetDiv, h1, h2]
  · intro a anc q rest f rest2 h1 h2 h3 h4 h5
    simp [scrape_tepco_rates, locateTargetDiv, h1, h2, h3, h4, h5]

/-- C5 witness: a document with no `anker01` div and no matching anchor
aborts with the descriptive container error. -/
theorem discovery_failure_witness :
    scrape_tepco_rates (.mk "html" none none "" []) = .error .containerNotFound :=
  (discovery_failure (.mk "html" none none "" [])).1 (by rfl) (by rfl)

/-! ### Current-rate selection -/

theorem findLevyVal_eq_find : ∀ (levies : List LevyPeriod) (curr : Nat),
    (∀ l ∈ levies, (ymToVal l.start).isSome ∧ (ymToVal l.«end»).isSome) →
    findLevyVal curr levies = .ok ((levies.find? (levyContains curr)).map LevyPeriod.price) := by
  intro levies curr
  induction levies with
  | nil => intro _; rfl
  | cons l ls ih =>
    intro h
    obtain ⟨hs, he⟩ := h l (List.mem_cons_self l ls)
    obtain ⟨sv, hsv⟩ := Option.isSome_iff_exists.mp hs
    obtain ⟨ev, hev⟩ := Option.isSome_iff_exists.mp he
    simp only [findLevyVal, hsv, hev]
    by_cases hc : sv ≤ curr ∧ curr ≤ ev
    · rw [if_pos hc]
      have hcl : levyContains curr l = true := by
        rw [levyContains, hsv, hev]
        simp only [Bool.and_eq_true, decide_eq_true_eq]
        exact hc
      simp [List.find?_cons, hcl]
    · rw [if_neg hc]
      have hcl : levyContains curr l = false := by
        rw [levyContains, hsv, hev]
        simp only [Bool.and_eq_false_iff, decide_eq_false_iff_not]
        omega
      rw [ih (fun l' hl' => h l' (List.mem_cons_of_mem l hl')), List.find?_cons, hcl]

/-- C4: with today's `(year, month)` and well-formed levy bounds,
`get_current_rates` never errors; its `fuel_adjustment` is the price of the
first entry with an exact `(year, month)` match and its
`renewable_energy_levy` is the price of the first period whose inclusive
`[start, end]` range (under the `year*100 + month` encoding) holds today —
each `none` when no match exists.  On the spec's example, today = 2025-07
against the two hardcoded periods selects 3.98. -/
theorem current_rates_selection :
    (∀ (y m : Nat) (iso : String) (fuel : List FuelAdjustmentEntry) (levies : List LevyPeriod),
      (∀ l ∈ levies, (ymToVal l.start).isSome ∧ (ymToVal l.«end»).isSome) →
      get_current_rates y m iso fuel levies = .ok
        { year := y, month := m, date_iso := iso,
          fuel_adjustment :=
            (fuel.find? (fun e => e.year == y && e.month == m)).map
              FuelAdjustmentEntry.price_kwh,
          renewable_energy_levy :=
            (levies.find? (levyContains (y * 100 + m))).map LevyPeriod.price })
    ∧ get_current_rates 2025 7 "2025-07-15" []
        [{ start := "2024-05", «end» := "2025-04", price := 3.49 },
         { start := "2025-05", «end» := "2026-05", price := 3.98 }] =
        .ok { year := 2025, month := 7, date_iso := "2025-07-15", fuel_adjustment := none,
              renewable_energy_levy := some 3.98 } := by
  refine ⟨?_, by with_unfolding_all rfl⟩
  intro y m iso fuel levies h
  simp [get_current_rates, findLevyVal_eq_find levies (y * 100 + m) h]

/-- C4 witness: the general selection equation at the hardcoded periods. -/
theorem current_rates_selection_witness :
    get_current_rates 2024 11 "2024-11-02" [] initialLevies = .ok
      { year := 2024, month := 11, date_iso := "2024-11-02",
        fuel_adjustment :=
          (([] : List FuelAdjustmentEntry).find? (fun e => e.year == 2024 && e.month == 11)).map
            FuelAdjustmentEntry.price_kwh,
        renewable_energy_levy :=
          (initialLevies.find? (levyContains (2024 * 100 + 11))).map LevyPeriod.price } :=
  current_rates_selection.1 2024 11 "2024-11-02" [] initialLevies (by decide)

theorem findLevyVal_first : ∀ (pre : List LevyPeriod) (l1 : LevyPeriod)
    (rest : List LevyPeriod) (curr : Nat),
    (∀ l ∈ pre, (ymToVal l.start).isSome ∧ (ymToVal l.«end»).isSome) →
    (∀ l ∈ pre, levyContains curr l = false) →
    levyContains curr l1 = true →
    findLevyVal curr (pre ++ l1 :: rest) = .ok (some l1.price) := by
  intro pre l1 rest curr
  induction pre with
  | nil =>
    intro _ _ h1
    cases hsv : ymToVal l1.start with
    | none => rw [levyContains, hsv] at h1; exact absurd h1 (by simp)
    | some sv =>
      cases hev : ymToVal l1.«end» with
      | none => rw [levyContains, hsv, hev] at h1; exact absurd h1 (by simp)
      | some ev =>
        rw [levyContains, hsv, hev] at h1
        simp only [Bool.and_eq_true, decide_eq_true_eq] at h1
        simp [findLevyVal, hsv, hev, h1]
  | cons l0 pre ih =>
    intro hwf hmiss h1
    obtain ⟨hs, he⟩ := hwf l0 (List.mem_cons_self l0 pre)
    obtain ⟨sv, hsv⟩ := Option.isSome_iff_exists.mp hs
    obtain ⟨ev, hev⟩ := Option.isSome_iff_exists.mp he
    have h0 : levyContains curr l0 = false := hmiss l0 (List.mem_cons_self l0 pre)
    rw [levyContains, hsv, hev] at h0
    simp only [Bool.and_eq_false_iff, decide_eq_false_iff_not] at h0
    have : findLevyVal curr ((l0 :: pre) ++ l1 :: rest) =
        findLevyVal curr (pre ++ l1 :: rest) := by
      simp only [List.cons_append, findLevyVal, hsv, hev]
      rw [if_neg (by omega)]
      rfl
    rw [this]
    exact ih (fun l' hl' => hwf l' (List.mem_cons_of_mem l0 hl'))
      (fun l' hl' => hmiss l' (List.mem_cons_of_mem l0 hl')) h1

/-- C10: when several periods' inclusive ranges hold today's year-month (as
happens at the 2026-05 boundary, shared by the hardcoded period's end and a
discovered period's start), `get_current_rates` reports the price of the
first matching period in list order, ignoring every later period.
Concretely, for today = 2026-05 and the hardcoded list extended with a
discovered `2026-05..2027-05` period priced 2.40, both periods contain
today, and the reported levy is 3.98 — picked by position, not by dates. -/
theorem levy_first_match_in_list_order :
    (∀ (y m : Nat) (iso : String) (fuel : List FuelAdjustmentEntry)
        (pre : List LevyPeriod) (l1 : LevyPeriod) (rest : List LevyPeriod),
      (∀ l ∈ pre, (ymToVal l.start).isSome ∧ (ymToVal l.«end»).isSome) →
      (∀ l ∈ pre, levyContains (y * 100 + m) l = false) →
      levyContains (y * 100 + m) l1 = true →
      get_current_rates y m iso fuel (pre ++ l1 :: rest) = .ok
        { year := y, month := m, date_iso := iso,
          fuel_adjustment :=
            (fuel.find? (fun e => e.year == y && e.month == m)).map
              FuelAdjustmentEntry.price_kwh,
          renewable_energy_levy := some l1.price })
    ∧ levyContains 202605 { start := "2025-05", «end» := "2026-05", price := 3.98 } = true
    ∧ levyContains 202605 { start := "2026-05", «end» := "2027-05", price := 2.40 } = true
    ∧ get_current_rates 2026 5 "2026-05-01" []
        (initialLevies ++ [{ start := "2026-05", «end» := "2027-05", price := 2.40 }]) =
        .ok { year := 2026, month := 5, date_iso := "2026-05-01", fuel_adjustment := none,
              renewable_energy_levy := some 3.98 } := by
  refine ⟨?_, by with_unfolding_all rfl, by with_unfolding_all rfl, by with_unfolding_all rfl⟩
  intro y m iso fuel pre l1 rest hwf hmiss h1
  simp [get_current_rates, findLevyVal_first pre l1 rest (y * 100 + m) hwf hmiss h1]

/-- C10 witness: the general first-match rule applied at the 2026-05
boundary, with the overlapping discovered period in the tail. -/
theorem levy_first_match_in_list_order_witness :
    get_current_rates 2026 5 "2026-05-01" []
      ([{ start := "2024-05", «end» := "2025-04", price := 3.49 }] ++
        { start := "2025-05", «end» := "2026-05", price := 3.98 } ::
          [{ start := "2026-05", «end» := "2027-05", price := 2.40 }]) = .ok
      { year := 2026, month := 5, date_iso := "2026-05-01",
        fuel_adjustment :=
          (([] : List FuelAdjustmentEntry).find? (fun e => e.year == 2026 && e.month == 5)).map
            FuelAdjustmentEntry.price_kwh,
        renewable_energy_levy :=
          some ({ start := "2025-05", «end» := "2026-05", price := 3.98 } : LevyPeriod).price } :=
  levy_first_match_in_list_order.1 2026 5 "2026-05-01" []
    [{ start := "2024-05", «end» := "2025-04", price := 3.49 }]
    { start := "2025-05", «end» := "2026-05", price := 3.98 }
    [{ start := "2026-05", «end» := "2027-05", price := 2.40 }]
    (by decide) (by decide) (by decide)

/-! ### Renewable-levy discovery -/

/-- C6 counterexample: the claim says a successful per-year check appends a
period, but a PDF whose extracted price is `0` is a successful extraction
(`check_renewable_energy_pdf` returns it) that the `if price:` truthiness
test then discards — nothing is appended. -/
theorem levy_zero_price_not_appended :
    check_renewable_energy_pdf (fun _ => .ok (200, ())) (fun _ => .ok ["単価0円"])
        (fun s => s) 2026 = some 0
    ∧ get_renewable_energy_levy (fun _ => .ok (200, ())) (fun _ => .ok ["単価0円"])
        (fun s => s) true = initialLevies :=
  ⟨by with_unfolding_all rfl, by with_unfolding_all rfl⟩

/-- C6 (amended): every failure inside the per-year check — network error,
non-200 status, PDF decode error, or both regex patterns missing — yields
`none` instead of raising; and with discovery enabled the resolver processes
2026 and 2027 independently, appending for each year with a truthy
(non-`None`, nonzero) discovered price one period from that year's May to
the following year's May; a discovered price of exactly `0` is treated as no
data. -/
theorem levy_pdf_error_handling :
    (∀ (α : Type) (fetchPdf : Nat → Except Unit (Nat × α))
        (extractPdfText : α → Except Unit (List String)) (nfkc : String → String) (year : Nat),
      fetchPdf year = .error () →
      check_renewable_energy_pdf fetchPdf extractPdfText nfkc year = none)
    ∧ (∀ (α : Type) (fetchPdf : Nat → Except Unit (Nat × α))
        (extractPdfText : α → Except Unit (List String)) (nfkc : String → String)
        (year st : Nat) (content : α),
      fetchPdf year = .ok (st, content) → st ≠ 200 →
      check_renewable_energy_pdf fetchPdf extractPdfText nfkc year = none)
    ∧ (∀ (α : Type) (fetchPdf : Nat → Except Unit (Nat × α))
        (extractPdfText : α → Except Unit (List String)) (nfkc : String → String)
        (year : Nat) (content : α),
      fetchPdf year = .ok (200, content) → extractPdfText content = .error () →
      check_renewable_energy_pdf fetchPdf extractPdfText nfkc year = none)
    ∧ (∀ (α : Type) (fetchPdf : Nat → Except Unit (Nat × α))
        (extractPdfText : α → Except Unit (List String)) (nfkc : String → String)
        (year : Nat) (content : α) (pages : List String),
      fetchPdf year = .ok (200, content) → extractPdfText content = .ok pages →
      searchTankaPrice (normalizedPdfText nfkc pages).data = none →
      searchFukakinPrice (normalizedPdfText nfkc pages).data = none →
      check_renewable_energy_pdf fetchPdf extractPdfText nfkc year = none)
    ∧ (∀ (α : Type) (fetchPdf : Nat → Except Unit (Nat × α))
        (extractPdfText : α → Except Unit (List String)) (nfkc : String → String),
      get_renewable_energy_levy fetchPdf extractPdfText nfkc true =
        initialLevies ++
          discoveredPeriod (check_renewable_energy_pdf fetchPdf extractPdfText nfkc 2026) 2026 ++
          discoveredPeriod (check_renewable_energy_pdf fetchPdf extractPdfText nfkc 2027) 2027) := by
  refine ⟨?_, ?_, ?_, ?_, ?_⟩
  · intro α fetchPdf extractPdfText nfkc year h
    simp [check_renewable_energy_pdf, h]
  · intro α fetchPdf extractPdfText nfkc year st content h hne
    simp [check_renewable_energy_pdf, h, hne]
  · intro α fetchPdf extractPdfText nfkc year content h he
    simp [check_renewable_energy_pdf, h, he]
  · intro α fetchPdf extractPdfText nfkc year content pages h he h1 h2
    simp [check_renewable_energy_pdf, h, he, h1, h2]
  · intro α fetchPdf extractPdfText nfkc
    have hstep : ∀ (levies : List LevyPeriod) (year : Nat),
        levies.any (fun l => l.start == natToString year ++ "-05") = false →
        levyYearStep fetchPdf extractPdfText nfkc levies year =
          levies ++
            discoveredPeriod (check_renewable_energy_pdf fetchPdf extractPdfText nfkc year)
              year := by
      intro levies year h
      simp only [levyYearStep, h, Bool.false_eq_true, if_false]
      cases hc : check_renewable_energy_pdf fetchPdf extractPdfText nfkc year with
      | none => simp [discoveredPeriod]
      | some p =>
        by_cases hz : p = 0
        · subst hz; simp [discoveredPeriod]
        · simp [discoveredPeriod, hz]
    have hmain : get_renewable_energy_levy fetchPdf extractPdfText nfkc true =
        List.foldl (levyYearStep fetchPdf extractPdfText nfkc) initialLevies [2026, 2027] := by
      simp [get_renewable_energy_levy]
    rw [hmain, List.foldl_cons, List.foldl_cons, List.foldl_nil]
    rw [hstep initialLevies 2026 (by with_unfolding_all rfl)]
    have hany27 : ((initialLevies ++
        discoveredPeriod (check_renewable_energy_pdf fetchPdf extractPdfText nfkc 2026)
          2026).any (fun l => l.start == natToString 2027 ++ "-05")) = false := by
      rw [List.any_append]
      have ha : (initialLevies.any (fun l => l.start == natToString 2027 ++ "-05")) = false := by
        with_unfolding_all rfl
      have hb : ((discoveredPeriod
          (check_renewable_energy_pdf fetchPdf extractPdfText nfkc 2026) 2026).any
            (fun l => l.start == natToString 2027 ++ "-05")) = false := by
        cases hc : check_renewable_energy_pdf fetchPdf extractPdfText nfkc 2026 with
        | none => rfl
        | some p =>
          by_cases hz : p = 0
          · subst hz; simp [discoveredPeriod]
          · simp [discoveredPeriod, hz,
              show ((natToString 2026 ++ "-05" == natToString 2027 ++ "-05") = false) from
                by with_unfolding_all rfl]
      rw [ha, hb]
      rfl
    rw [hstep _ 2027 hany27]

/-- C6 witness: a network failure for the year is swallowed into `none`. -/
theorem levy_pdf_error_handling_witness :
    check_renewable_energy_pdf (fun _ => (.error () : Except Unit (Nat × Unit)))
      (fun _ => .ok [""]) (fun s => s) 2026 = none :=
  levy_pdf_error_handling.1 Unit (fun _ => .error ()) (fun _ => .ok [""]) (fun s => s) 2026 rfl

end TepcoRates
